import Mathlib

/-!
A shallow embedding of the single source file `src/app.tsx` of the
`canva-app` repository.  The file contains two alternative
implementations of the same React component (`App`), separated by a
document separator; they share their state shape, their `reset`
handler and the overall structure of `handleExportAndSend`, and differ
only in the mockup-URL builder (the first, `mockupUrl`, does not trim
the title; the second, `buildMockupUrl`, does) — so the export/upload
handler is embedded once, parameterised by the URL builder.

JavaScript strings are modelled as Lean `String`; `undefined`/missing
optional strings as `Option String` (with `none` for `undefined`);
JavaScript truthiness on strings (`""` is falsy) as the `jsOrStr`
combinator; `String.prototype.trim` as `jsTrim` (stripping leading and
trailing whitespace characters).  `encodeURIComponent` and the inverse
percent-decoding are modelled byte-precisely with UTF-8.
-/

namespace CanvaApp

/-- JavaScript string-or: `a || b` where the empty string is falsy. -/
def jsOrStr (a b : String) : String := if a = "" then b else a

/-- An optional JS string coerced for truthiness tests: `undefined` acts
like the empty string in `x || y`. -/
def optStr : Option String → String
  | none => ""
  | some s => s

/-- Model of `String.prototype.trim`: strip leading and trailing
whitespace characters. -/
def jsTrim (s : String) : String :=
  String.mk (((s.data.dropWhile Char.isWhitespace).reverse.dropWhile
    Char.isWhitespace).reverse)

/-- The UTF-8 byte sequence of a Unicode scalar value, as natural
numbers below 256. -/
def utf8Bytes (c : Char) : List Nat :=
  if c.toNat < 0x80 then [c.toNat]
  else if c.toNat < 0x800 then [0xC0 + c.toNat / 64, 0x80 + c.toNat % 64]
  else if c.toNat < 0x10000 then
    [0xE0 + c.toNat / 4096, 0x80 + c.toNat / 64 % 64, 0x80 + c.toNat % 64]
  else
    [0xF0 + c.toNat / 262144, 0x80 + c.toNat / 4096 % 64,
      0x80 + c.toNat / 64 % 64, 0x80 + c.toNat % 64]

/-- Uppercase hexadecimal digit for a value below 16, as produced by
`encodeURIComponent`. -/
def hexDigitChar (n : Nat) : Char :=
  if n < 10 then Char.ofNat (48 + n) else Char.ofNat (55 + n)

/-- The characters `encodeURIComponent` leaves unescaped:
`A-Z a-z 0-9 - _ . ! ~ * ' ( )`. -/
def isUnreservedChar (c : Char) : Bool :=
  (65 ≤ c.toNat && c.toNat ≤ 90) || (97 ≤ c.toNat && c.toNat ≤ 122) ||
  (48 ≤ c.toNat && c.toNat ≤ 57) ||
  [45, 95, 46, 33, 126, 42, 39, 40, 41].contains c.toNat

/-- `%XX` escape of one byte (character 37 is the percent sign). -/
def percentEncodeByte (b : Nat) : List Char :=
  [Char.ofNat 37, hexDigitChar (b / 16), hexDigitChar (b % 16)]

/-- `encodeURIComponent` on a character list: unreserved characters are
kept, every other character is replaced by the `%XX` escapes of its
UTF-8 bytes. -/
def encodeChars : List Char → List Char
  | [] => []
  | c :: cs =>
    (if isUnreservedChar c then [c]
     else ((utf8Bytes c).map percentEncodeByte).flatten) ++ encodeChars cs

/-- JavaScript's `encodeURIComponent`. -/
def encodeURIComponent (s : String) : String := String.mk (encodeChars s.data)

/-- Value of a hexadecimal digit character, if it is one. -/
def hexVal (c : Char) : Option Nat :=
  if 48 ≤ c.toNat ∧ c.toNat ≤ 57 then some (c.toNat - 48)
  else if 65 ≤ c.toNat ∧ c.toNat ≤ 70 then some (c.toNat - 55)
  else if 97 ≤ c.toNat ∧ c.toNat ≤ 102 then some (c.toNat - 87)
  else none

/-- One step of percent-decoding: consume a `%XX` escape (one byte) or a
plain character (its UTF-8 bytes), returning the bytes produced and the
remaining characters.  Fails on a malformed escape. -/
def percentDecodeStep (c : Char) (cs : List Char) :
    Option (List Nat × List Char) :=
  if c.toNat = 37 then
    match cs with
    | h1 :: h2 :: cs2 =>
      match hexVal h1, hexVal h2 with
      | some a, some b => some ([a * 16 + b], cs2)
      | _, _ => none
    | _ => none
  else some (utf8Bytes c, cs)

/-- Fuel-indexed driver of percent-decoding; the fuel bounds the number
of decoding steps (each step consumes at least one character, so the
character count is always enough fuel). -/
def percentDecodeGo : Nat → List Char → Option (List Nat)
  | _, [] => some []
  | 0, _ :: _ => none
  | fuel + 1, c :: cs =>
    match percentDecodeStep c cs with
    | some (bs, rest) =>
      (percentDecodeGo fuel rest).map (fun tail => bs ++ tail)
    | none => none

/-- First phase of percent-decoding: turn a character list into the byte
sequence it denotes. -/
def percentDecodeBytes (l : List Char) : Option (List Nat) :=
  percentDecodeGo l.length l

/-- Consume one UTF-8 scalar from the front of a byte sequence
(rejecting stray continuation bytes, overlong forms, surrogates and
out-of-range values), returning the scalar and the remaining bytes. -/
def utf8DecodeOne : List Nat → Option (Char × List Nat)
  | [] => none
  | b :: bs =>
    if b < 0x80 then some (Char.ofNat b, bs)
    else if b < 0xC2 then none
    else if b < 0xE0 then
      match bs with
      | b2 :: bs2 =>
        if 0x80 ≤ b2 ∧ b2 < 0xC0 then
          some (Char.ofNat ((b - 0xC0) * 64 + (b2 - 0x80)), bs2)
        else none
      | [] => none
    else if b < 0xF0 then
      match bs with
      | b2 :: b3 :: bs3 =>
        if (0x80 ≤ b2 ∧ b2 < 0xC0) ∧ (0x80 ≤ b3 ∧ b3 < 0xC0) then
          if (b - 0xE0) * 4096 + (b2 - 0x80) * 64 + (b3 - 0x80) < 0x800 ∨
              (0xD800 ≤ (b - 0xE0) * 4096 + (b2 - 0x80) * 64 + (b3 - 0x80) ∧
                (b - 0xE0) * 4096 + (b2 - 0x80) * 64 + (b3 - 0x80) < 0xE000)
          then none
          else some
            (Char.ofNat ((b - 0xE0) * 4096 + (b2 - 0x80) * 64 + (b3 - 0x80)),
              bs3)
        else none
      | _ => none
    else if b < 0xF5 then
      match bs with
      | b2 :: b3 :: b4 :: bs4 =>
        if (0x80 ≤ b2 ∧ b2 < 0xC0) ∧ (0x80 ≤ b3 ∧ b3 < 0xC0) ∧
            (0x80 ≤ b4 ∧ b4 < 0xC0) then
          if (b - 0xF0) * 262144 + (b2 - 0x80) * 4096 + (b3 - 0x80) * 64 +
                (b4 - 0x80) < 0x10000 ∨
              0x110000 ≤ (b - 0xF0) * 262144 + (b2 - 0x80) * 4096 +
                (b3 - 0x80) * 64 + (b4 - 0x80) then none
          else some
            (Char.ofNat ((b - 0xF0) * 262144 + (b2 - 0x80) * 4096 +
              (b3 - 0x80) * 64 + (b4 - 0x80)), bs4)
        else none
      | _ => none
    else none

/-- Fuel-indexed driver of UTF-8 decoding; each scalar consumes at
least one byte, so the byte count is always enough fuel. -/
def utf8Go : Nat → List Nat → Option (List Char)
  | _, [] => some []
  | 0, _ :: _ => none
  | fuel + 1, b :: bs =>
    match utf8DecodeOne (b :: bs) with
    | some (c, rest) => (utf8Go fuel rest).map (fun cs => c :: cs)
    | none => none

/-- Second phase of percent-decoding: strict UTF-8 decoding of a byte
sequence. -/
def utf8DecodeBytes (l : List Nat) : Option (List Char) :=
  utf8Go l.length l

/-- JavaScript's `decodeURIComponent` (returning `none` where the
original would throw `URIError`). -/
def decodeURIComponent (s : String) : Option String :=
  (percentDecodeBytes s.data).bind
    (fun bs => (utf8DecodeBytes bs).map String.mk)

/-! ### Reading the `arte` query parameter of a URL

The standard reading of a query string: split on the ampersand, find
the piece introduced by the parameter name. -/

/-- Split a character list on the ampersand (character 38). -/
def splitAmp : List Char → List (List Char)
  | [] => [[]]
  | c :: cs =>
    if c.toNat = 38 then [] :: splitAmp cs
    else
      match splitAmp cs with
      | a :: r => (c :: a) :: r
      | [] => [[c]]

/-- If a piece starts with the parameter introducer, return what
follows it. -/
def stripArte : List Char → Option (List Char)
  | 'a' :: 'r' :: 't' :: 'e' :: '=' :: rest => some rest
  | _ => none

/-- The raw (still percent-encoded) value of the `arte` query parameter
of a URL, if any. -/
def arteParamOf (url : String) : Option String :=
  (((splitAmp url.data).filterMap stripArte).head?).map String.mk

/-- The percent-decoded value of the `arte` query parameter. -/
def decodedArte (url : String) : Option String :=
  (arteParamOf url).bind decodeURIComponent

/-! ### The mockup-URL builders (src/app.tsx) -/

/-- Fixed mockup parameter (both variants, lines 75 and 305). -/
def modelo : String := "2 Canecas Padrão"

/-- Fixed mockup parameter (both variants, lines 76 and 306). -/
def cor : String := "Branca"

/-- First variant's URL builder (`mockupUrl`, lines 78–85):
`titleParam || title || "arte"`, no trimming.  `title` is the React
state value captured by the closure. -/
def mockupUrl (title : String) (titleParam : Option String) : String :=
  "https://admin.levebrasa.com/internal/mockup"
    ++ "?modelo=" ++ encodeURIComponent modelo
    ++ "&arte="
    ++ encodeURIComponent (jsOrStr (jsOrStr (optStr titleParam) title) "arte")
    ++ "&cor=" ++ encodeURIComponent cor

/-- `artTitle && artTitle.trim()` of the second variant: a falsy
`artTitle` (undefined or empty) yields itself (falsy, i.e. "" for the
purposes of `||`), otherwise its trim. -/
def jsAndTrim : Option String → String
  | none => ""
  | some s => if s = "" then "" else jsTrim s

/-- Second variant's effective title
(`(artTitle && artTitle.trim()) || title || "arte"`, line 393). -/
def finalTitleB (artTitle : Option String) (title : String) : String :=
  jsOrStr (jsOrStr (jsAndTrim artTitle) title) "arte"

/-- Second variant's URL builder (`buildMockupUrl`, lines 392–400). -/
def buildMockupUrl (title : String) (artTitle : Option String) : String :=
  "https://admin.levebrasa.com/internal/mockup"
    ++ "?modelo=" ++ encodeURIComponent modelo
    ++ "&arte=" ++ encodeURIComponent (finalTitleB artTitle title)
    ++ "&cor=" ++ encodeURIComponent cor

/-- Common shape of both builders, as a function of the encoded title. -/
def urlShape (t : String) : String :=
  "https://admin.levebrasa.com/internal/mockup"
    ++ "?modelo=" ++ encodeURIComponent modelo
    ++ "&arte=" ++ encodeURIComponent t
    ++ "&cor=" ++ encodeURIComponent cor

/-! ### The session state machine (src/app.tsx)

React state (`useState` defaults, lines 69–72 and 299–302), the
`handleExportAndSend` transition (lines 87–171 and 410–463) and the
`reset` transition (lines 173–177 and 465–469).  An async run of the
handler is embedded as a pure function of an environment recording the
outcome of each awaited collaborator call; `setX` calls become state
updates; the `title` read inside the URL builder is the value captured
by the closure at render time, i.e. the state value at entry (React
state updates do not affect the running closure).  Console logging and
wall-clock timing have no effect on state and are not modelled. -/

/-- `timings?: { totalMs?: number }` of the upload response. -/
structure TimingsInfo where
  totalMs : Option Nat
deriving DecidableEq

/-- The parsed JSON upload response (`ExportResponse` type, lines
286–296; the first variant's type, lines 56–65, lacks the `error`
field but the code reads it through a cast with identical semantics).
A wire response missing `ok` is falsy, modelled as `ok = false`. -/
structure UploadJson where
  ok : Bool
  path : String
  url : String
  requestId : Option String
  bucket : Option String
  size : Option Nat
  contentTypeOut : Option String
  timings : Option TimingsInfo
  error : Option String
deriving DecidableEq

/-- Result of `requestExport` (status, optional title, blob handles —
blobs are opaque, modelled as numbers). -/
structure ExportResult where
  status : String
  title : Option String
  exportBlobs : List Nat
deriving DecidableEq

/-- The transport-level part of the `fetch` response; `ok` is true iff
the HTTP status is in the 200–299 range. -/
structure FetchResp where
  ok : Bool
deriving DecidableEq

/-- Outcome of an awaited collaborator call: a value, or a thrown
error whose optional `message` property is recorded (`none` models a
thrown value without a message). -/
inductive Outcome (α : Type) where
  | ok (a : α)
  | thrown (msg : Option String)
deriving DecidableEq

/-- The environment of one run of `handleExportAndSend`: the outcome
of each awaited step, in program order. -/
structure Env where
  exportResult : Outcome ExportResult
  userToken : Outcome String
  designToken : Outcome String
  fetchResult : Outcome FetchResp
  jsonResult : Outcome (Option UploadJson)
  openResult : Outcome Unit

/-- The component's React state (lines 69–72 and 299–302). -/
structure SessionState where
  loading : Bool
  errorMessage : Option String
  resultInfo : Option UploadJson
  title : String
deriving DecidableEq

/-- The `useState` initial values. -/
def initialState : SessionState :=
  { loading := false, errorMessage := none, resultInfo := none, title := "" }

/-- The lifecycle phase, exactly as the render derives it (lines
196–272 and 486–546): `loading ? busy : errorMessage ? failed :
resultInfo?.ok ? success : idle` (a `null` or empty `errorMessage` is
falsy). -/
inductive Phase where
  | idle
  | busy
  | success
  | failed
deriving DecidableEq

/-- `json?.ok` truthiness of an optional parsed response. -/
def jsonOkB : Option UploadJson → Bool
  | none => false
  | some j => j.ok

def phase (s : SessionState) : Phase :=
  if s.loading then .busy
  else if optStr s.errorMessage ≠ "" then .failed
  else if jsonOkB s.resultInfo then .success
  else .idle

/-- `err?.message || fallback` for a caught thrown value. -/
def caughtMsg (m : Option String) (fallback : String) : String :=
  jsOrStr (optStr m) fallback

/-- The upload request the handler sends (fetch call, lines 111–122 and
431–442): JSON body `{ title: result.title, files: result.exportBlobs,
designToken }` with the user token as bearer credential. -/
structure UploadRequest where
  title : Option String
  files : List Nat
  userToken : String
  designToken : String
deriving DecidableEq

/-- The observable outcome of one run: the final state, the upload
requests issued and the URLs passed to `requestOpenExternalUrl`. -/
structure RunTrace where
  state : SessionState
  uploads : List UploadRequest
  opens : List String
deriving DecidableEq

/-- One run of `handleExportAndSend`, parameterised by the URL builder
(the only difference between the two variants).  Mirrors lines 87–171
(with `build := mockupUrl`) and 410–463 (with `build :=
buildMockupUrl`): clear messages, set loading, then step through the
awaited calls; every `catch` records `err?.message || "Erro
inesperado."`; the `finally` clears `loading` on every path; the
preview-open `try/catch` swallows its error. -/
def handleExportAndSendWith (build : String → Option String → String)
    (env : Env) (s0 : SessionState) : RunTrace :=
  let s := { s0 with errorMessage := none, resultInfo := none, loading := true }
  match env.exportResult with
  | .thrown m =>
    let sE := { s with errorMessage := some (caughtMsg m "Erro inesperado."), loading := false }
    { state := sE, uploads := [], opens := [] }
  | .ok result =>
    if result.status ≠ "completed" then
      { state := { s with loading := false }, uploads := [], opens := [] }
    else
      let s := { s with title := jsOrStr (optStr result.title) "arte" }
      match env.userToken with
      | .thrown m =>
        let sE := { s with errorMessage := some (caughtMsg m "Erro inesperado."), loading := false }
        { state := sE, uploads := [], opens := [] }
      | .ok userToken =>
        match env.designToken with
        | .thrown m =>
          let sE := { s with errorMessage := some (caughtMsg m "Erro inesperado."), loading := false }
          { state := sE, uploads := [], opens := [] }
        | .ok designToken =>
          let req : UploadRequest :=
            { title := result.title, files := result.exportBlobs, userToken := userToken, designToken := designToken }
          match env.fetchResult with
          | .thrown m =>
            let sE := { s with errorMessage := some (caughtMsg m "Erro inesperado."), loading := false }
            { state := sE, uploads := [req], opens := [] }
          | .ok resp =>
            match env.jsonResult with
            | .thrown m =>
              let sE := { s with errorMessage := some (caughtMsg m "Erro inesperado."), loading := false }
              { state := sE, uploads := [req], opens := [] }
            | .ok json =>
              let s := { s with resultInfo := json }
              if resp.ok && jsonOkB json then
                match env.openResult with
                | .ok _ =>
                  { state := { s with loading := false }, uploads := [req], opens := [build s0.title result.title] }
                | .thrown _ =>
                  { state := { s with loading := false }, uploads := [req], opens := [build s0.title result.title] }
              else
                let msg := jsOrStr (optStr (json.bind (fun j => j.error))) "Falha ao enviar a arte."
                let sE := { s with errorMessage := some msg, loading := false }
                { state := sE, uploads := [req], opens := [] }

/-- The first variant's `handleExportAndSend` (lines 87–171). -/
def handleExportAndSendV1 : Env → SessionState → RunTrace :=
  handleExportAndSendWith mockupUrl

/-- The second variant's `handleExportAndSend` (lines 410–463). -/
def handleExportAndSendV2 : Env → SessionState → RunTrace :=
  handleExportAndSendWith buildMockupUrl

/-- The `reset` transition (identical in both variants, lines 173–177
and 465–469): clear `errorMessage`, `resultInfo` and `title`.  It does
not touch `loading`. -/
def reset (s : SessionState) : SessionState :=
  { s with errorMessage := none, resultInfo := none, title := "" }

/-- Number of decoding steps the encoding of a character list takes. -/
def stepsOf : List Char → Nat
  | [] => 0
  | c :: cs =>
    (if isUnreservedChar c then 1 else (utf8Bytes c).length) + stepsOf cs

/-! ### Concrete fixtures used in closed statements -/

/-- A parsed upload response with `ok = true` and no `error` field. -/
def jsonOkTrue : UploadJson :=
  ⟨true, "p", "u", none, none, none, none, none, none⟩

/-- A parsed upload response with `ok = false` and
`error = "arquivo inválido"`. -/
def jsonErrRejected : UploadJson :=
  ⟨false, "", "", none, none, none, none, none, some "arquivo inválido"⟩

/-- Export completed, but the HTTP response fails (`resp.ok = false`)
while the body still claims `ok: true`. -/
def envHttpFailJsonOk : Env :=
  ⟨.ok ⟨"completed", some "x", [1]⟩, .ok "u", .ok "d", .ok ⟨false⟩,
    .ok (some jsonOkTrue), .ok ()⟩

/-- A fully successful run with export title "Logo". -/
def envAllOk : Env :=
  ⟨.ok ⟨"completed", some "Logo", [1]⟩, .ok "u", .ok "d", .ok ⟨true⟩,
    .ok (some jsonOkTrue), .ok ()⟩

/-- A successful run whose export title has surrounding spaces. -/
def envPaddedTitle : Env :=
  ⟨.ok ⟨"completed", some " x ", [1]⟩, .ok "u", .ok "d", .ok ⟨true⟩,
    .ok (some jsonOkTrue), .ok ()⟩

/-- A completed export with the title absent. -/
def envNoTitle : Env :=
  ⟨.ok ⟨"completed", none, [1]⟩, .ok "u", .ok "d", .ok ⟨true⟩,
    .ok (some jsonOkTrue), .ok ()⟩

/-- The export dialog dismissed by the user. -/
def envCancelled : Env :=
  ⟨.ok ⟨"cancelled", none, []⟩, .ok "u", .ok "d", .ok ⟨true⟩,
    .ok none, .ok ()⟩

/-- An upload the endpoint rejects with a reason. -/
def envRejected : Env :=
  ⟨.ok ⟨"completed", some "Logo", [1]⟩, .ok "u", .ok "d", .ok ⟨true⟩,
    .ok (some jsonErrRejected), .ok ()⟩

/-- A successful upload after which the preview-open call throws. -/
def envOpenThrows : Env :=
  ⟨.ok ⟨"completed", some "Logo", [1]⟩, .ok "u", .ok "d", .ok ⟨true⟩,
    .ok (some jsonOkTrue), .thrown (some "blocked")⟩

/-! ### Round-trip of percent-encoding -/

theorem char_toNat_valid (c : Char) :
    c.toNat < 0xD800 ∨ (0xDFFF < c.toNat ∧ c.toNat < 0x110000) := by
  have h := c.valid
  simpa [Char.toNat, UInt32.isValidChar, Nat.isValidChar] using h

theorem utf8Bytes_lt (c : Char) : ∀ b ∈ utf8Bytes c, b < 256 := by
  have hv := char_toNat_valid c
  intro b hb
  by_cases h1 : c.toNat < 0x80
  · simp [utf8Bytes, h1] at hb; omega
  · by_cases h2 : c.toNat < 0x800
    · simp [utf8Bytes, h1, h2] at hb; rcases hb with h | h <;> omega
    · by_cases h3 : c.toNat < 0x10000
      · simp [utf8Bytes, h1, h2, h3] at hb
        rcases hb with h | h | h <;> omega
      · simp [utf8Bytes, h1, h2, h3] at hb
        rcases hb with h | h | h | h <;> omega

theorem utf8DecodeOne_one (n : Nat) (h : n < 0x80) (bs : List Nat) :
    utf8DecodeOne (n :: bs) = some (Char.ofNat n, bs) := by
  simp [utf8DecodeOne, h]

theorem utf8DecodeOne_two (n : Nat) (h1 : 0x80 ≤ n) (h2 : n < 0x800)
    (bs : List Nat) :
    utf8DecodeOne ((0xC0 + n / 64) :: (0x80 + n % 64) :: bs)
      = some (Char.ofNat n, bs) := by
  have c1 : ¬ (0xC0 + n / 64 < 0x80) := by omega
  have c2 : ¬ (0xC0 + n / 64 < 0xC2) := by omega
  have c3 : 0xC0 + n / 64 < 0xE0 := by omega
  have c4 : 0x80 ≤ 0x80 + n % 64 ∧ 0x80 + n % 64 < 0xC0 := by omega
  simp [utf8DecodeOne, c1, c2, c3, c4]
  have c5 : n / 64 * 64 + n % 64 = n := by omega
  rw [c5]

theorem utf8DecodeOne_three (n : Nat) (h1 : 0x800 ≤ n) (h2 : n < 0x10000)
    (hv : ¬ (0xD800 ≤ n ∧ n < 0xE000)) (bs : List Nat) :
    utf8DecodeOne
        ((0xE0 + n / 4096) :: (0x80 + n / 64 % 64) :: (0x80 + n % 64) :: bs)
      = some (Char.ofNat n, bs) := by
  have c1 : ¬ (0xE0 + n / 4096 < 0x80) := by omega
  have c2 : ¬ (0xE0 + n / 4096 < 0xC2) := by omega
  have c3 : ¬ (0xE0 + n / 4096 < 0xE0) := by omega
  have c4 : 0xE0 + n / 4096 < 0xF0 := by omega
  have c5 : 0x80 ≤ 0x80 + n / 64 % 64 ∧ 0x80 + n / 64 % 64 < 0xC0 := by omega
  have c6 : 0x80 ≤ 0x80 + n % 64 ∧ 0x80 + n % 64 < 0xC0 := by omega
  have c7 : (0xE0 + n / 4096 - 0xE0) * 4096 + (0x80 + n / 64 % 64 - 0x80) * 64
      + (0x80 + n % 64 - 0x80) = n := by omega
  have c8 : ¬ (n < 0x800 ∨ (0xD800 ≤ n ∧ n < 0xE000)) := by omega
  simp only [utf8DecodeOne, if_neg c1, if_neg c2, if_neg c3, if_pos c4]
  rw [if_pos ⟨c5, c6⟩, c7, if_neg c8]

theorem utf8DecodeOne_four (n : Nat) (h1 : 0x10000 ≤ n)
    (h2 : n < 0x110000) (bs : List Nat) :
    utf8DecodeOne
        ((0xF0 + n / 262144) :: (0x80 + n / 4096 % 64) ::
          (0x80 + n / 64 % 64) :: (0x80 + n % 64) :: bs)
      = some (Char.ofNat n, bs) := by
  have c1 : ¬ (0xF0 + n / 262144 < 0x80) := by omega
  have c2 : ¬ (0xF0 + n / 262144 < 0xC2) := by omega
  have c3 : ¬ (0xF0 + n / 262144 < 0xE0) := by omega
  have c4 : ¬ (0xF0 + n / 262144 < 0xF0) := by omega
  have c5 : 0xF0 + n / 262144 < 0xF5 := by omega
  have c6 : 0x80 ≤ 0x80 + n / 4096 % 64 ∧ 0x80 + n / 4096 % 64 < 0xC0 := by
    omega
  have c7 : 0x80 ≤ 0x80 + n / 64 % 64 ∧ 0x80 + n / 64 % 64 < 0xC0 := by omega
  have c8 : 0x80 ≤ 0x80 + n % 64 ∧ 0x80 + n % 64 < 0xC0 := by omega
  have c9 : (0xF0 + n / 262144 - 0xF0) * 262144
      + (0x80 + n / 4096 % 64 - 0x80) * 4096
      + (0x80 + n / 64 % 64 - 0x80) * 64 + (0x80 + n % 64 - 0x80) = n := by
    omega
  have c10 : ¬ (n < 0x10000 ∨ 0x110000 ≤ n) := by omega
  simp only [utf8DecodeOne, if_neg c1, if_neg c2, if_neg c3, if_neg c4,
    if_pos c5]
  rw [if_pos ⟨c6, c7, c8⟩, c9, if_neg c10]

theorem utf8DecodeOne_utf8Bytes (c : Char) (bs : List Nat) :
    utf8DecodeOne (utf8Bytes c ++ bs) = some (c, bs) := by
  have hv := char_toNat_valid c
  have hofn : Char.ofNat c.toNat = c := Char.ofNat_toNat c
  by_cases h1 : c.toNat < 0x80
  · have hb : utf8Bytes c = [c.toNat] := by simp [utf8Bytes, h1]
    rw [hb, List.cons_append, List.nil_append, utf8DecodeOne_one c.toNat h1,
      hofn]
  · by_cases h2 : c.toNat < 0x800
    · have hb : utf8Bytes c = [0xC0 + c.toNat / 64, 0x80 + c.toNat % 64] := by
        simp [utf8Bytes, h1, h2]
      rw [hb]
      simpa [hofn] using utf8DecodeOne_two c.toNat (by omega) h2 bs
    · by_cases h3 : c.toNat < 0x10000
      · have hb : utf8Bytes c = [0xE0 + c.toNat / 4096,
            0x80 + c.toNat / 64 % 64, 0x80 + c.toNat % 64] := by
          simp [utf8Bytes, h1, h2, h3]
        rw [hb]
        simpa [hofn] using
          utf8DecodeOne_three c.toNat (by omega) h3 (by omega) bs
      · have hb : utf8Bytes c = [0xF0 + c.toNat / 262144,
            0x80 + c.toNat / 4096 % 64, 0x80 + c.toNat / 64 % 64,
            0x80 + c.toNat % 64] := by
          simp [utf8Bytes, h1, h2, h3]
        rw [hb]
        simpa [hofn] using
          utf8DecodeOne_four c.toNat (by omega) (by omega) bs

theorem utf8Bytes_ne_nil (c : Char) : utf8Bytes c ≠ [] := by
  by_cases h1 : c.toNat < 0x80
  · simp [utf8Bytes, h1]
  · by_cases h2 : c.toNat < 0x800
    · simp [utf8Bytes, h1, h2]
    · by_cases h3 : c.toNat < 0x10000 <;> simp [utf8Bytes, h1, h2, h3]

theorem utf8Go_flat (l : List Char) (fuel : Nat) :
    utf8Go (l.length + fuel) ((l.map utf8Bytes).flatten) = some l := by
  induction l generalizing fuel with
  | nil => simp [utf8Go]
  | cons c cs ih =>
    simp only [List.map_cons, List.flatten_cons, List.length_cons]
    have hne := utf8Bytes_ne_nil c
    obtain ⟨b, bs, hb⟩ : ∃ b bs, utf8Bytes c = b :: bs := by
      cases hu : utf8Bytes c with
      | nil => exact absurd hu hne
      | cons b bs => exact ⟨b, bs, rfl⟩
    have hshape : utf8Bytes c ++ (cs.map utf8Bytes).flatten
        = b :: (bs ++ (cs.map utf8Bytes).flatten) := by rw [hb]; rfl
    have hlen : cs.length + 1 + fuel = (cs.length + fuel) + 1 := by omega
    rw [hlen, hshape, utf8Go]
    rw [← hshape, utf8DecodeOne_utf8Bytes c]
    simp [ih fuel]

theorem hexVal_hexDigitChar : ∀ k, k < 16 → hexVal (hexDigitChar k) = some k := by
  decide

theorem percentDecodeStep_escape (b : Nat) (hb : b < 256) (l : List Char) :
    percentDecodeStep (Char.ofNat 37)
        (hexDigitChar (b / 16) :: hexDigitChar (b % 16) :: l)
      = some ([b], l) := by
  have h37 : (Char.ofNat 37).toNat = 37 := by decide
  have e1 := hexVal_hexDigitChar (b / 16) (by omega)
  have e2 := hexVal_hexDigitChar (b % 16) (by omega)
  have harith : b / 16 * 16 + b % 16 = b := by omega
  simp [percentDecodeStep, h37, e1, e2, harith]

theorem isUnreservedChar_ne_percent (c : Char)
    (h : isUnreservedChar c = true) : ¬ c.toNat = 37 := by
  intro hc
  simp [isUnreservedChar, hc] at h

theorem percentDecodeStep_plain (c : Char) (h : ¬ c.toNat = 37)
    (l : List Char) : percentDecodeStep c l = some (utf8Bytes c, l) := by
  simp [percentDecodeStep, h]

theorem percentDecodeGo_escapes (bytes : List Nat)
    (hb : ∀ b ∈ bytes, b < 256) (l : List Char) (fuel : Nat) :
    percentDecodeGo (bytes.length + fuel)
        ((bytes.map percentEncodeByte).flatten ++ l)
      = (percentDecodeGo fuel l).map (fun tail => bytes ++ tail) := by
  induction bytes generalizing fuel with
  | nil =>
    simp only [List.map_nil, List.flatten_nil, List.nil_append,
      List.length_nil, Nat.zero_add]
    cases percentDecodeGo fuel l <;> rfl
  | cons b bs ih =>
    have hb1 : b < 256 := hb b (by simp)
    have hb2 : ∀ x ∈ bs, x < 256 := fun x hx => hb x (by simp [hx])
    have hlen : (b :: bs).length + fuel = (bs.length + fuel) + 1 := by
      simp; omega
    rw [hlen]
    simp only [List.map_cons, List.flatten_cons, percentEncodeByte,
      List.cons_append, List.nil_append, List.append_assoc]
    rw [percentDecodeGo]
    have hstep := percentDecodeStep_escape b hb1
      ((bs.map percentEncodeByte).flatten ++ l)
    simp only [percentEncodeByte] at hstep
    rw [hstep]
    dsimp only
    rw [ih hb2 fuel]
    cases percentDecodeGo fuel l <;> rfl

theorem percentDecodeGo_encodeChars (l : List Char) (rest : List Char)
    (fuel : Nat) :
    percentDecodeGo (stepsOf l + fuel) (encodeChars l ++ rest)
      = (percentDecodeGo fuel rest).map
          (fun tail => (l.map utf8Bytes).flatten ++ tail) := by
  induction l generalizing fuel with
  | nil =>
    simp only [stepsOf, encodeChars, List.nil_append, List.map_nil,
      List.flatten_nil, Nat.zero_add]
    cases percentDecodeGo fuel rest <;> rfl
  | cons c cs ih =>
    by_cases hc : isUnreservedChar c
    · have hne := isUnreservedChar_ne_percent c hc
      have hsteps : stepsOf (c :: cs) + fuel = (stepsOf cs + fuel) + 1 := by
        simp [stepsOf, hc]; omega
      rw [hsteps]
      simp only [encodeChars, if_pos hc, List.cons_append, List.nil_append]
      rw [percentDecodeGo, percentDecodeStep_plain c hne]
      dsimp only
      rw [ih fuel]
      simp only [List.map_cons, List.flatten_cons, List.append_assoc]
      cases percentDecodeGo fuel rest <;> rfl
    · have hsteps : stepsOf (c :: cs) + fuel
          = (utf8Bytes c).length + (stepsOf cs + fuel) := by
        simp [stepsOf, hc]; omega
      rw [hsteps]
      simp only [encodeChars, if_neg hc, List.append_assoc]
      rw [percentDecodeGo_escapes (utf8Bytes c) (utf8Bytes_lt c), ih fuel]
      simp only [List.map_cons, List.flatten_cons, List.append_assoc]
      cases percentDecodeGo fuel rest <;> rfl

theorem stepsOf_le_length_encodeChars (l : List Char) :
    stepsOf l ≤ (encodeChars l).length := by
  induction l with
  | nil => simp [stepsOf, encodeChars]
  | cons c cs ih =>
    by_cases hc : isUnreservedChar c
    · simp [stepsOf, encodeChars, hc]; omega
    · have hlen : (((utf8Bytes c).map percentEncodeByte).flatten).length
          = 3 * (utf8Bytes c).length := by
        induction utf8Bytes c with
        | nil => simp
        | cons b bs ihb =>
          simp only [List.map_cons, List.flatten_cons, List.length_append,
            List.length_cons, ihb]
          simp [percentEncodeByte]; omega
      simp only [stepsOf, if_neg hc, encodeChars, List.length_append, hlen]
      omega

theorem percentDecodeGo_nil (fuel : Nat) : percentDecodeGo fuel [] = some [] := by
  cases fuel <;> rfl

theorem percentDecodeBytes_encodeChars (l : List Char) :
    percentDecodeBytes (encodeChars l) = some ((l.map utf8Bytes).flatten) := by
  have hle := stepsOf_le_length_encodeChars l
  have hlen : (encodeChars l).length
      = stepsOf l + ((encodeChars l).length - stepsOf l) := by omega
  rw [percentDecodeBytes, hlen]
  have h := percentDecodeGo_encodeChars l []
    ((encodeChars l).length - stepsOf l)
  rw [List.append_nil] at h
  rw [h, percentDecodeGo_nil]
  simp

theorem list_length_le_flat (l : List Char) :
    l.length ≤ ((l.map utf8Bytes).flatten).length := by
  induction l with
  | nil => simp
  | cons c cs ih =>
    have hne := utf8Bytes_ne_nil c
    have : 1 ≤ (utf8Bytes c).length := by
      cases hu : utf8Bytes c with
      | nil => exact absurd hu hne
      | cons b bs => simp
    simp only [List.map_cons, List.flatten_cons, List.length_append,
      List.length_cons]
    omega

theorem utf8DecodeBytes_flat (l : List Char) :
    utf8DecodeBytes ((l.map utf8Bytes).flatten) = some l := by
  have hle := list_length_le_flat l
  have hlen : ((l.map utf8Bytes).flatten).length
      = l.length + (((l.map utf8Bytes).flatten).length - l.length) := by
    omega
  rw [utf8DecodeBytes, hlen, utf8Go_flat]

/-- Percent-encoding round-trips: `decodeURIComponent` inverts
`encodeURIComponent` on every string. -/
theorem decodeURIComponent_encodeURIComponent (s : String) :
    decodeURIComponent (encodeURIComponent s) = some s := by
  have h1 : (encodeURIComponent s).data = encodeChars s.data := rfl
  simp only [decodeURIComponent, h1, percentDecodeBytes_encodeChars,
    Option.some_bind, utf8DecodeBytes_flat]
  rfl

theorem hexDigitChar_toNat_ne_38 : ∀ k, k < 16 → ¬ (hexDigitChar k).toNat = 38 := by
  decide

theorem isUnreservedChar_toNat_ne_38 (c : Char)
    (h : isUnreservedChar c = true) : ¬ c.toNat = 38 := by
  intro hc
  simp [isUnreservedChar, hc] at h

theorem encodeChars_no_amp (l : List Char) :
    ∀ x ∈ encodeChars l, ¬ x.toNat = 38 := by
  induction l with
  | nil => intro x hx; simp [encodeChars] at hx
  | cons c cs ih =>
    intro x hx
    simp only [encodeChars, List.mem_append] at hx
    rcases hx with hx | hx
    · by_cases hc : isUnreservedChar c
      · rw [if_pos hc] at hx
        simp at hx
        subst hx
        exact isUnreservedChar_toNat_ne_38 _ hc
      · rw [if_neg hc] at hx
        simp only [List.mem_flatten, List.mem_map] at hx
        obtain ⟨piece, ⟨b, hbmem, hpe⟩, hxin⟩ := hx
        subst hpe
        have hblt : b < 256 := utf8Bytes_lt c b hbmem
        simp only [percentEncodeByte, List.mem_cons, List.not_mem_nil] at hxin
        rcases hxin with h | h | h
        · subst h; decide
        · subst h; exact hexDigitChar_toNat_ne_38 (b / 16) (by omega)
        · rcases h with h | h
          · subst h; exact hexDigitChar_toNat_ne_38 (b % 16) (by omega)
          · exact absurd h (by simp)
    · exact ih x hx

theorem encodeURIComponent_no_amp (s : String) :
    ∀ x ∈ (encodeURIComponent s).data, ¬ x.toNat = 38 :=
  encodeChars_no_amp s.data

theorem splitAmp_append_amp (l r : List Char)
    (h : ∀ c ∈ l, ¬ c.toNat = 38) :
    splitAmp (l ++ '&' :: r) = l :: splitAmp r := by
  induction l with
  | nil =>
    simp only [List.nil_append]
    rw [splitAmp, if_pos (by decide)]
  | cons c cs ih =>
    have hc : ¬ c.toNat = 38 := h c (by simp)
    have hcs : ∀ x ∈ cs, ¬ x.toNat = 38 := fun x hx => h x (by simp [hx])
    rw [List.cons_append, splitAmp, if_neg hc, ih hcs]

theorem splitAmp_no_amp (l : List Char) (h : ∀ c ∈ l, ¬ c.toNat = 38) :
    splitAmp l = [l] := by
  induction l with
  | nil => rfl
  | cons c cs ih =>
    have hc : ¬ c.toNat = 38 := h c (by simp)
    have hcs : ∀ x ∈ cs, ¬ x.toNat = 38 := fun x hx => h x (by simp [hx])
    rw [splitAmp, if_neg hc, ih hcs]

theorem mockupUrl_eq_urlShape (title : String) (titleParam : Option String) :
    mockupUrl title titleParam
      = urlShape (jsOrStr (jsOrStr (optStr titleParam) title) "arte") := rfl

theorem buildMockupUrl_eq_urlShape (title : String) (artTitle : Option String) :
    buildMockupUrl title artTitle = urlShape (finalTitleB artTitle title) := rfl

theorem arteParamOf_urlShape (t : String) :
    arteParamOf (urlShape t) = some (encodeURIComponent t) := by
  have hdata : (urlShape t).data
      = ("https://admin.levebrasa.com/internal/mockup".data
          ++ "?modelo=".data ++ (encodeURIComponent modelo).data)
        ++ '&' :: ('a' :: 'r' :: 't' :: 'e' :: '=' :: ((encodeURIComponent t).data
          ++ '&' :: ('c' :: 'o' :: 'r' :: '=' :: (encodeURIComponent cor).data))) := by
    simp only [urlShape, String.data_append]
    simp [List.append_assoc]
  have hP : ∀ x ∈ ("https://admin.levebrasa.com/internal/mockup".data
      ++ "?modelo=".data ++ (encodeURIComponent modelo).data),
      ¬ x.toNat = 38 := by
    intro x hx
    simp only [List.mem_append] at hx
    rcases hx with (hx | hx) | hx
    · revert x; decide
    · revert x; decide
    · exact encodeURIComponent_no_amp modelo x hx
  have hA : ∀ x ∈ 'a' :: 'r' :: 't' :: 'e' :: '=' :: (encodeURIComponent t).data,
      ¬ x.toNat = 38 := by
    intro x hx
    simp only [List.mem_cons] at hx
    rcases hx with h | h | h | h | h | h
    · subst h; decide
    · subst h; decide
    · subst h; decide
    · subst h; decide
    · subst h; decide
    · exact encodeURIComponent_no_amp t x h
  have hC : ∀ x ∈ 'c' :: 'o' :: 'r' :: '=' :: (encodeURIComponent cor).data,
      ¬ x.toNat = 38 := by
    intro x hx
    simp only [List.mem_cons] at hx
    rcases hx with h | h | h | h | h
    · subst h; decide
    · subst h; decide
    · subst h; decide
    · subst h; decide
    · exact encodeURIComponent_no_amp cor x h
  have hsplit2 : splitAmp
      ('a' :: 'r' :: 't' :: 'e' :: '=' :: ((encodeURIComponent t).data
        ++ '&' :: ('c' :: 'o' :: 'r' :: '=' :: (encodeURIComponent cor).data)))
      = ('a' :: 'r' :: 't' :: 'e' :: '=' :: (encodeURIComponent t).data)
        :: splitAmp ('c' :: 'o' :: 'r' :: '=' :: (encodeURIComponent cor).data) := by
    have := splitAmp_append_amp
      ('a' :: 'r' :: 't' :: 'e' :: '=' :: (encodeURIComponent t).data)
      ('c' :: 'o' :: 'r' :: '=' :: (encodeURIComponent cor).data) hA
    simpa using this
  rw [arteParamOf, hdata, splitAmp_append_amp _ _ hP, hsplit2,
    splitAmp_no_amp _ hC]
  have h1 : stripArte ("https://admin.levebrasa.com/internal/mockup".data
      ++ "?modelo=".data ++ (encodeURIComponent modelo).data) = none := rfl
  have h2 : stripArte ('a' :: 'r' :: 't' :: 'e' :: '='
      :: (encodeURIComponent t).data) = some (encodeURIComponent t).data := rfl
  have h3 : stripArte ('c' :: 'o' :: 'r' :: '='
      :: (encodeURIComponent cor).data) = none := rfl
  simp only [List.filterMap_cons, h1, h2, h3]
  rfl

/-- Decoding the `arte` parameter of (either) builder's URL recovers
the effective title exactly. -/
theorem decodedArte_urlShape (t : String) :
    decodedArte (urlShape t) = some t := by
  rw [decodedArte, arteParamOf_urlShape]
  simpa using decodeURIComponent_encodeURIComponent t

/-! ### Characterisation of the runs -/

theorem run_throw_export (build : String → Option String → String)
    (env : Env) (s : SessionState) (m : Option String)
    (h : env.exportResult = .thrown m) :
    handleExportAndSendWith build env s =
      RunTrace.mk
        (SessionState.mk false (some (caughtMsg m "Erro inesperado.")) none s.title)
        [] [] := by
  simp only [handleExportAndSendWith, h]

theorem run_cancel (build : String → Option String → String)
    (env : Env) (s : SessionState) (r : ExportResult)
    (her : env.exportResult = .ok r) (hst : r.status ≠ "completed") :
    handleExportAndSendWith build env s =
      RunTrace.mk (SessionState.mk false none none s.title) [] [] := by
  simp only [handleExportAndSendWith, her, if_pos hst]

theorem run_throw_userToken (build : String → Option String → String)
    (env : Env) (s : SessionState) (r : ExportResult) (m : Option String)
    (her : env.exportResult = .ok r) (hst : r.status = "completed")
    (hut : env.userToken = .thrown m) :
    handleExportAndSendWith build env s =
      RunTrace.mk
        (SessionState.mk false (some (caughtMsg m "Erro inesperado.")) none
          (jsOrStr (optStr r.title) "arte"))
        [] [] := by
  have hst2 : ¬ r.status ≠ "completed" := by simp [hst]
  simp only [handleExportAndSendWith, her, hut, if_neg hst2]

theorem run_throw_designToken (build : String → Option String → String)
    (env : Env) (s : SessionState) (r : ExportResult) (u : String)
    (m : Option String)
    (her : env.exportResult = .ok r) (hst : r.status = "completed")
    (hut : env.userToken = .ok u) (hdt : env.designToken = .thrown m) :
    handleExportAndSendWith build env s =
      RunTrace.mk
        (SessionState.mk false (some (caughtMsg m "Erro inesperado.")) none
          (jsOrStr (optStr r.title) "arte"))
        [] [] := by
  have hst2 : ¬ r.status ≠ "completed" := by simp [hst]
  simp only [handleExportAndSendWith, her, hut, hdt, if_neg hst2]

theorem run_throw_fetch (build : String → Option String → String)
    (env : Env) (s : SessionState) (r : ExportResult) (u d : String)
    (m : Option String)
    (her : env.exportResult = .ok r) (hst : r.status = "completed")
    (hut : env.userToken = .ok u) (hdt : env.designToken = .ok d)
    (hfr : env.fetchResult = .thrown m) :
    handleExportAndSendWith build env s =
      RunTrace.mk
        (SessionState.mk false (some (caughtMsg m "Erro inesperado.")) none
          (jsOrStr (optStr r.title) "arte"))
        [UploadRequest.mk r.title r.exportBlobs u d] [] := by
  have hst2 : ¬ r.status ≠ "completed" := by simp [hst]
  simp only [handleExportAndSendWith, her, hut, hdt, hfr, if_neg hst2]

theorem run_throw_json (build : String → Option String → String)
    (env : Env) (s : SessionState) (r : ExportResult) (u d : String)
    (resp : FetchResp) (m : Option String)
    (her : env.exportResult = .ok r) (hst : r.status = "completed")
    (hut : env.userToken = .ok u) (hdt : env.designToken = .ok d)
    (hfr : env.fetchResult = .ok resp) (hjr : env.jsonResult = .thrown m) :
    handleExportAndSendWith build env s =
      RunTrace.mk
        (SessionState.mk false (some (caughtMsg m "Erro inesperado.")) none
          (jsOrStr (optStr r.title) "arte"))
        [UploadRequest.mk r.title r.exportBlobs u d] [] := by
  have hst2 : ¬ r.status ≠ "completed" := by simp [hst]
  simp only [handleExportAndSendWith, her, hut, hdt, hfr, hjr, if_neg hst2]

theorem run_success (build : String → Option String → String)
    (env : Env) (s : SessionState) (r : ExportResult) (u d : String)
    (resp : FetchResp) (j : Option UploadJson)
    (her : env.exportResult = .ok r) (hst : r.status = "completed")
    (hut : env.userToken = .ok u) (hdt : env.designToken = .ok d)
    (hfr : env.fetchResult = .ok resp) (hjr : env.jsonResult = .ok j)
    (hok : resp.ok = true) (hjo : jsonOkB j = true) :
    handleExportAndSendWith build env s =
      RunTrace.mk
        (SessionState.mk false none j (jsOrStr (optStr r.title) "arte"))
        [UploadRequest.mk r.title r.exportBlobs u d]
        [build s.title r.title] := by
  have hst2 : ¬ r.status ≠ "completed" := by simp [hst]
  cases horr : env.openResult with
  | ok a =>
    simp only [handleExportAndSendWith, her, hut, hdt, hfr, hjr, horr,
      if_neg hst2, hok, hjo, Bool.and_self, if_true]
  | thrown m =>
    simp only [handleExportAndSendWith, her, hut, hdt, hfr, hjr, horr,
      if_neg hst2, hok, hjo, Bool.and_self, if_true]

theorem run_rejected (build : String → Option String → String)
    (env : Env) (s : SessionState) (r : ExportResult) (u d : String)
    (resp : FetchResp) (j : Option UploadJson)
    (her : env.exportResult = .ok r) (hst : r.status = "completed")
    (hut : env.userToken = .ok u) (hdt : env.designToken = .ok d)
    (hfr : env.fetchResult = .ok resp) (hjr : env.jsonResult = .ok j)
    (hnok : (resp.ok && jsonOkB j) = false) :
    handleExportAndSendWith build env s =
      RunTrace.mk
        (SessionState.mk false
          (some (jsOrStr (optStr (j.bind (fun x => x.error)))
            "Falha ao enviar a arte."))
          j (jsOrStr (optStr r.title) "arte"))
        [UploadRequest.mk r.title r.exportBlobs u d] [] := by
  have hst2 : ¬ r.status ≠ "completed" := by simp [hst]
  simp only [handleExportAndSendWith, her, hut, hdt, hfr, hjr,
    if_neg hst2, hnok, Bool.false_eq_true, if_false]

theorem run_loading_false (build : String → Option String → String)
    (env : Env) (s : SessionState) :
    (handleExportAndSendWith build env s).state.loading = false := by
  rcases env with ⟨er, ut, dt, fr, jr, orr⟩
  cases er <;> cases ut <;> cases dt <;> cases fr <;> cases jr <;> cases orr <;>
    (simp only [handleExportAndSendWith]; repeat' split) <;> rfl

theorem jsOrStr_ne_empty (a b : String) (hb : b ≠ "") : jsOrStr a b ≠ "" := by
  by_cases ha : a = ""
  · simpa [jsOrStr, ha] using hb
  · simp [jsOrStr, ha]

theorem caughtMsg_ne_empty (m : Option String) (fb : String) (hfb : fb ≠ "") :
    caughtMsg m fb ≠ "" :=
  jsOrStr_ne_empty _ _ hfb

theorem phase_of_error (j : Option UploadJson) (t msg : String)
    (hm : msg ≠ "") :
    phase (SessionState.mk false (some msg) j t) = Phase.failed := by
  simp [phase, optStr, hm]

theorem phase_of_success (j : Option UploadJson) (t : String)
    (hj : jsonOkB j = true) :
    phase (SessionState.mk false none j t) = Phase.success := by
  simp [phase, optStr, hj]

theorem phase_ne_busy (s : SessionState) (h : s.loading = false) :
    phase s ≠ Phase.busy := by
  simp only [phase, h, Bool.false_eq_true, if_false]
  repeat' split
  all_goals simp

theorem run_after_tokens (build : String → Option String → String)
    (env : Env) (s : SessionState) (r : ExportResult) (u d : String)
    (her : env.exportResult = .ok r) (hst : r.status = "completed")
    (hut : env.userToken = .ok u) (hdt : env.designToken = .ok d) :
    (handleExportAndSendWith build env s).uploads
        = [UploadRequest.mk r.title r.exportBlobs u d] ∧
    (handleExportAndSendWith build env s).state.title
        = jsOrStr (optStr r.title) "arte" := by
  cases hfr : env.fetchResult with
  | thrown m =>
    rw [run_throw_fetch build env s r u d m her hst hut hdt hfr]
    exact ⟨rfl, rfl⟩
  | ok resp =>
    cases hjr : env.jsonResult with
    | thrown m =>
      rw [run_throw_json build env s r u d resp m her hst hut hdt hfr hjr]
      exact ⟨rfl, rfl⟩
    | ok j =>
      by_cases hok : (resp.ok && jsonOkB j) = true
      · obtain ⟨h1, h2⟩ := Bool.and_eq_true_iff.mp hok
        rw [run_success build env s r u d resp j her hst hut hdt hfr hjr h1 h2]
        exact ⟨rfl, rfl⟩
      · have h0 : (resp.ok && jsonOkB j) = false := by
          simpa using hok
        rw [run_rejected build env s r u d resp j her hst hut hdt hfr hjr h0]
        exact ⟨rfl, rfl⟩

/-! ### The claims -/

/-- C1 (amended): for every run of the start transition in which the
HTTP response is ok AND the parsed response has `ok = true`, the state
machine records that response as `lastUpload` (`resultInfo`), enters
the `Success` phase and attempts to open the preview URL exactly once
— in both variants.  (The original claim, that the parsed `ok = true`
alone suffices, is refuted by `C1_counterexample`: the code also
requires `resp.ok`.) -/
theorem C1_success_needs_http_ok (env : Env) (s : SessionState)
    (r : ExportResult) (u d : String) (resp : FetchResp)
    (j : Option UploadJson)
    (her : env.exportResult = .ok r) (hst : r.status = "completed")
    (hut : env.userToken = .ok u) (hdt : env.designToken = .ok d)
    (hfr : env.fetchResult = .ok resp) (hjr : env.jsonResult = .ok j)
    (hok : resp.ok = true) (hjo : jsonOkB j = true) :
    ((handleExportAndSendV1 env s).state.resultInfo = j ∧
      phase (handleExportAndSendV1 env s).state = Phase.success ∧
      (handleExportAndSendV1 env s).opens = [mockupUrl s.title r.title]) ∧
    ((handleExportAndSendV2 env s).state.resultInfo = j ∧
      phase (handleExportAndSendV2 env s).state = Phase.success ∧
      (handleExportAndSendV2 env s).opens
        = [buildMockupUrl s.title r.title]) := by
  have h1 := run_success mockupUrl env s r u d resp j her hst hut hdt hfr
    hjr hok hjo
  have h2 := run_success buildMockupUrl env s r u d resp j her hst hut hdt
    hfr hjr hok hjo
  simp only [handleExportAndSendV1, handleExportAndSendV2]
  rw [h1, h2]
  exact ⟨⟨rfl, phase_of_success _ _ hjo, rfl⟩,
    ⟨rfl, phase_of_success _ _ hjo, rfl⟩⟩

/-- C1 counterexample: a run whose parsed response has `ok = true` but
whose HTTP response has `resp.ok = false` does not enter `Success`; it
ends in `Failed` and never attempts the preview.  So "no other
condition is required" is false — the code also requires `resp.ok`. -/
theorem C1_counterexample :
    jsonOkB (some jsonOkTrue) = true ∧
    phase (handleExportAndSendV2 envHttpFailJsonOk initialState).state
        ≠ Phase.success ∧
    phase (handleExportAndSendV2 envHttpFailJsonOk initialState).state
        = Phase.failed ∧
    (handleExportAndSendV2 envHttpFailJsonOk initialState).opens = [] := by
  decide

/-- C1 witness: the amended theorem applied to a concrete fully
successful run. -/
theorem C1_witness :
    (handleExportAndSendV2 envAllOk initialState).state.resultInfo
        = some jsonOkTrue ∧
    phase (handleExportAndSendV2 envAllOk initialState).state
        = Phase.success :=
  ⟨(C1_success_needs_http_ok envAllOk initialState
      ⟨"completed", some "Logo", [1]⟩ "u" "d" ⟨true⟩ (some jsonOkTrue)
      rfl rfl rfl rfl rfl rfl rfl rfl).2.1,
    (C1_success_needs_http_ok envAllOk initialState
      ⟨"completed", some "Logo", [1]⟩ "u" "d" ⟨true⟩ (some jsonOkTrue)
      rfl rfl rfl rfl rfl rfl rfl rfl).2.2.1⟩

/-- C2 (amended): for the trimming builder (`buildMockupUrl`, second
variant) percent-decoding the `arte` parameter yields exactly the
effective title: `T.trim()` when that is non-empty, else the session's
last known title, else the literal "arte" — as the claim states.  For
the non-trimming builder (`mockupUrl`, first variant) decoding yields
`T` itself, untrimmed, falling back only when `T` is the empty string;
the original claim fails on it (`C2_counterexample`). -/
theorem C2_roundtrip_amended (T t0 : String) :
    (decodedArte (buildMockupUrl t0 (some T))
        = some (finalTitleB (some T) t0)) ∧
    (jsTrim T ≠ "" → finalTitleB (some T) t0 = jsTrim T) ∧
    (jsTrim T = "" → finalTitleB (some T) t0 = jsOrStr t0 "arte") ∧
    (decodedArte (mockupUrl t0 (some T))
        = some (jsOrStr (jsOrStr T t0) "arte")) := by
  refine ⟨?_, ?_, ?_, ?_⟩
  · rw [buildMockupUrl_eq_urlShape, decodedArte_urlShape]
  · intro h
    have hT : ¬ T = "" := fun hT => h (by rw [hT]; rfl)
    simp [finalTitleB, jsAndTrim, jsOrStr, hT, h]
  · intro h
    by_cases hT : T = "" <;> simp [finalTitleB, jsAndTrim, jsOrStr, hT, h]
  · rw [mockupUrl_eq_urlShape, decodedArte_urlShape]
    rfl

/-- C2 counterexample: the title " a&b " contains spaces and an
ampersand; under the first variant's builder the decoded `arte`
parameter is " a&b ", not its trim "a&b" — decoding does not yield
`T.trim()` for this variant. -/
theorem C2_counterexample :
    ('&' ∈ " a&b ".data ∧ ' ' ∈ " a&b ".data) ∧
    jsTrim " a&b " = "a&b" ∧
    decodedArte (mockupUrl "" (some " a&b ")) = some " a&b " ∧
    decodedArte (mockupUrl "" (some " a&b ")) ≠ some (jsTrim " a&b ") := by
  decide

/-- C2 witness: the amended theorem applied to a non-ASCII title with a
space. -/
theorem C2_witness :
    decodedArte (buildMockupUrl "" (some "Logo Verão"))
      = some "Logo Verão" := by
  have h := C2_roundtrip_amended "Logo Verão" ""
  have h2 := h.2.1 (by decide)
  rw [h.1, h2]
  decide

/-- C3 (amended): on every successful run the preview-open capability
is invoked exactly once, and the `arte` parameter of the URL it
receives decodes to the builder's effective title — in the second
variant the trimmed export title (falling back to the previously
captured session title, then "arte"), in the first the untrimmed one.
That decoded value equals the session's recorded title whenever the
export title is non-empty (first variant) resp. non-empty and
unchanged by trimming (second variant); otherwise it can differ
(`C3_counterexample`). -/
theorem C3_preview_once_amended (env : Env) (s : SessionState)
    (r : ExportResult) (u d : String) (resp : FetchResp)
    (j : Option UploadJson)
    (her : env.exportResult = .ok r) (hst : r.status = "completed")
    (hut : env.userToken = .ok u) (hdt : env.designToken = .ok d)
    (hfr : env.fetchResult = .ok resp) (hjr : env.jsonResult = .ok j)
    (hok : resp.ok = true) (hjo : jsonOkB j = true) :
    ((handleExportAndSendV1 env s).opens = [mockupUrl s.title r.title] ∧
      (handleExportAndSendV1 env s).opens.map decodedArte
        = [some (jsOrStr (jsOrStr (optStr r.title) s.title) "arte")]) ∧
    ((handleExportAndSendV2 env s).opens
        = [buildMockupUrl s.title r.title] ∧
      (handleExportAndSendV2 env s).opens.map decodedArte
        = [some (finalTitleB r.title s.title)]) ∧
    (∀ t, r.title = some t → t ≠ "" →
      jsOrStr (jsOrStr (optStr r.title) s.title) "arte"
        = (handleExportAndSendV1 env s).state.title) ∧
    (∀ t, r.title = some t → jsTrim t = t → t ≠ "" →
      finalTitleB r.title s.title
        = (handleExportAndSendV2 env s).state.title) := by
  have h1 := run_success mockupUrl env s r u d resp j her hst hut hdt hfr
    hjr hok hjo
  have h2 := run_success buildMockupUrl env s r u d resp j her hst hut hdt
    hfr hjr hok hjo
  simp only [handleExportAndSendV1, handleExportAndSendV2]
  rw [h1, h2]
  refine ⟨⟨rfl, ?_⟩, ⟨rfl, ?_⟩, ?_, ?_⟩
  · simp only [List.map_cons, List.map_nil, mockupUrl_eq_urlShape,
      decodedArte_urlShape]
  · simp only [List.map_cons, List.map_nil, buildMockupUrl_eq_urlShape,
      decodedArte_urlShape]
  · intro t ht hne
    rw [ht]
    simp [jsOrStr, optStr, hne]
  · intro t ht htr hne
    rw [ht]
    have h3 : jsTrim t ≠ "" := by rw [htr]; exact hne
    simp [finalTitleB, jsAndTrim, jsOrStr, optStr, hne, htr, h3]

/-- C3 counterexample: with export title " x " the second variant
records " x " as the session title but opens a URL whose `arte`
parameter decodes to the trimmed "x" — the parameter does not match
the recorded title. -/
theorem C3_counterexample :
    (handleExportAndSendV2 envPaddedTitle initialState).opens.length = 1 ∧
    (handleExportAndSendV2 envPaddedTitle initialState).state.title
        = " x " ∧
    ((handleExportAndSendV2 envPaddedTitle initialState).opens.map
        decodedArte) = [some "x"] ∧
    ¬ ((handleExportAndSendV2 envPaddedTitle initialState).opens.map
        decodedArte) = [some " x "] := by
  decide

/-- C3 witness: the amended theorem applied to a concrete successful
run whose title needs no trimming. -/
theorem C3_witness :
    (handleExportAndSendV2 envAllOk initialState).opens
        = [buildMockupUrl "" (some "Logo")] ∧
    finalTitleB (some "Logo") ""
        = (handleExportAndSendV2 envAllOk initialState).state.title := by
  have h := C3_preview_once_amended envAllOk initialState
    ⟨"completed", some "Logo", [1]⟩ "u" "d" ⟨true⟩ (some jsonOkTrue)
    rfl rfl rfl rfl rfl rfl rfl rfl
  exact ⟨h.2.1.1, h.2.2.2 "Logo" rfl (by decide) (by decide)⟩

/-- C4 (amended): for every completed export the start transition
records `result.title || "arte"` as the session title and invokes the
Upload Client exactly once with the export result's original title
(possibly absent), the exported files and both tokens.  The request's
title coincides with the recorded title whenever the original title is
non-empty; when it is absent the request carries no title while the
session records the placeholder (`C4_counterexample`). -/
theorem C4_upload_amended (env : Env) (s : SessionState)
    (r : ExportResult) (u d : String)
    (her : env.exportResult = .ok r) (hst : r.status = "completed")
    (hut : env.userToken = .ok u) (hdt : env.designToken = .ok d) :
    ((handleExportAndSendV1 env s).state.title
        = jsOrStr (optStr r.title) "arte" ∧
      (handleExportAndSendV1 env s).uploads
        = [UploadRequest.mk r.title r.exportBlobs u d]) ∧
    ((handleExportAndSendV2 env s).state.title
        = jsOrStr (optStr r.title) "arte" ∧
      (handleExportAndSendV2 env s).uploads
        = [UploadRequest.mk r.title r.exportBlobs u d]) ∧
    (optStr r.title ≠ "" →
      r.title = some (jsOrStr (optStr r.title) "arte")) := by
  have h1 := run_after_tokens mockupUrl env s r u d her hst hut hdt
  have h2 := run_after_tokens buildMockupUrl env s r u d her hst hut hdt
  refine ⟨⟨h1.2, h1.1⟩, ⟨h2.2, h2.1⟩, ?_⟩
  intro ht
  cases hrt : r.title with
  | none => rw [hrt] at ht; simp [optStr] at ht
  | some t =>
    rw [hrt] at ht
    simp only [optStr] at ht ⊢
    simp [jsOrStr, ht]

/-- C4 counterexample: with the export title absent the session
records the placeholder "arte" but the upload request is sent with no
title at all — not with the recorded title. -/
theorem C4_counterexample :
    (handleExportAndSendV2 envNoTitle initialState).state.title = "arte" ∧
    ((handleExportAndSendV2 envNoTitle initialState).uploads.map
        (fun q => q.title)) = [none] ∧
    ¬ ((handleExportAndSendV2 envNoTitle initialState).uploads.map
        (fun q => q.title)) = [some "arte"] := by
  decide

/-- C4 witness: the amended theorem applied to a concrete completed
export with a present title. -/
theorem C4_witness :
    (handleExportAndSendV2 envAllOk initialState).state.title = "Logo" ∧
    (handleExportAndSendV2 envAllOk initialState).uploads
      = [UploadRequest.mk (some "Logo") [1] "u" "d"] := by
  have h := C4_upload_amended envAllOk initialState
    ⟨"completed", some "Logo", [1]⟩ "u" "d" rfl rfl rfl rfl
  exact ⟨h.2.1.1, h.2.1.2⟩

/-- C5 (confirmed): for every export result whose status is not
"completed", the start transition ends in the `Idle` phase with
`lastError` and `lastUpload` unset, surfaces no error, attempts no
upload and opens no preview — in both variants. -/
theorem C5_cancellation_noop (env : Env) (s : SessionState)
    (r : ExportResult)
    (her : env.exportResult = .ok r) (hst : r.status ≠ "completed") :
    (phase (handleExportAndSendV1 env s).state = Phase.idle ∧
      (handleExportAndSendV1 env s).state.errorMessage = none ∧
      (handleExportAndSendV1 env s).state.resultInfo = none ∧
      (handleExportAndSendV1 env s).uploads = [] ∧
      (handleExportAndSendV1 env s).opens = []) ∧
    (phase (handleExportAndSendV2 env s).state = Phase.idle ∧
      (handleExportAndSendV2 env s).state.errorMessage = none ∧
      (handleExportAndSendV2 env s).state.resultInfo = none ∧
      (handleExportAndSendV2 env s).uploads = [] ∧
      (handleExportAndSendV2 env s).opens = []) := by
  have h1 := run_cancel mockupUrl env s r her hst
  have h2 := run_cancel buildMockupUrl env s r her hst
  simp only [handleExportAndSendV1, handleExportAndSendV2]
  rw [h1, h2]
  exact ⟨⟨rfl, rfl, rfl, rfl, rfl⟩, ⟨rfl, rfl, rfl, rfl, rfl⟩⟩

/-- C5 witness: the theorem applied to a concrete cancelled export. -/
theorem C5_witness :
    phase (handleExportAndSendV2 envCancelled initialState).state
        = Phase.idle ∧
    (handleExportAndSendV2 envCancelled initialState).uploads = [] := by
  have h := C5_cancellation_noop envCancelled initialState
    ⟨"cancelled", none, []⟩ rfl (by decide)
  exact ⟨h.2.1, h.2.2.2.2.1⟩

/-- C6 (confirmed): every failure inside the start sequence — an
upload response with `ok` falsy (or an HTTP failure), or an exception
thrown at any awaited step — ends in the `Failed` phase with
`lastError` a non-empty message: the response's `error` field when
present and non-empty, otherwise the fixed fallback; thrown errors
carry `err?.message` or the generic fallback.  Stated for an arbitrary
URL builder, hence for both variants; no exception escapes — every
environment yields a final state. -/
theorem C6_failure_carries_message
    (build : String → Option String → String) (env : Env)
    (s : SessionState) :
    (∀ m, env.exportResult = .thrown m →
      phase (handleExportAndSendWith build env s).state = Phase.failed ∧
      (handleExportAndSendWith build env s).state.errorMessage
        = some (caughtMsg m "Erro inesperado.") ∧
      caughtMsg m "Erro inesperado." ≠ "") ∧
    (∀ r m, env.exportResult = .ok r → r.status = "completed" →
      env.userToken = .thrown m →
      phase (handleExportAndSendWith build env s).state = Phase.failed ∧
      (handleExportAndSendWith build env s).state.errorMessage
        = some (caughtMsg m "Erro inesperado.") ∧
      caughtMsg m "Erro inesperado." ≠ "") ∧
    (∀ r u m, env.exportResult = .ok r → r.status = "completed" →
      env.userToken = .ok u → env.designToken = .thrown m →
      phase (handleExportAndSendWith build env s).state = Phase.failed ∧
      (handleExportAndSendWith build env s).state.errorMessage
        = some (caughtMsg m "Erro inesperado.") ∧
      caughtMsg m "Erro inesperado." ≠ "") ∧
    (∀ r u d m, env.exportResult = .ok r → r.status = "completed" →
      env.userToken = .ok u → env.designToken = .ok d →
      env.fetchResult = .thrown m →
      phase (handleExportAndSendWith build env s).state = Phase.failed ∧
      (handleExportAndSendWith build env s).state.errorMessage
        = some (caughtMsg m "Erro inesperado.") ∧
      caughtMsg m "Erro inesperado." ≠ "") ∧
    (∀ r u d resp m, env.exportResult = .ok r → r.status = "completed" →
      env.userToken = .ok u → env.designToken = .ok d →
      env.fetchResult = .ok resp → env.jsonResult = .thrown m →
      phase (handleExportAndSendWith build env s).state = Phase.failed ∧
      (handleExportAndSendWith build env s).state.errorMessage
        = some (caughtMsg m "Erro inesperado.") ∧
      caughtMsg m "Erro inesperado." ≠ "") ∧
    (∀ r u d resp j, env.exportResult = .ok r → r.status = "completed" →
      env.userToken = .ok u → env.designToken = .ok d →
      env.fetchResult = .ok resp → env.jsonResult = .ok j →
      (resp.ok && jsonOkB j) = false →
      phase (handleExportAndSendWith build env s).state = Phase.failed ∧
      (handleExportAndSendWith build env s).state.errorMessage
        = some (jsOrStr (optStr (j.bind (fun x => x.error)))
            "Falha ao enviar a arte.") ∧
      (∀ e, j.bind (fun x => x.error) = some e → e ≠ "" →
        (handleExportAndSendWith build env s).state.errorMessage = some e) ∧
      (j.bind (fun x => x.error) = none →
        (handleExportAndSendWith build env s).state.errorMessage
          = some "Falha ao enviar a arte.") ∧
      (∀ msg, (handleExportAndSendWith build env s).state.errorMessage
          = some msg → msg ≠ "")) := by
  have hfb1 : ("Erro inesperado." : String) ≠ "" := by decide
  have hfb2 : ("Falha ao enviar a arte." : String) ≠ "" := by decide
  refine ⟨?_, ?_, ?_, ?_, ?_, ?_⟩
  · intro m h
    rw [run_throw_export build env s m h]
    exact ⟨phase_of_error _ _ _ (caughtMsg_ne_empty m _ hfb1), rfl,
      caughtMsg_ne_empty m _ hfb1⟩
  · intro r m her hst hut
    rw [run_throw_userToken build env s r m her hst hut]
    exact ⟨phase_of_error _ _ _ (caughtMsg_ne_empty m _ hfb1), rfl,
      caughtMsg_ne_empty m _ hfb1⟩
  · intro r u m her hst hut hdt
    rw [run_throw_designToken build env s r u m her hst hut hdt]
    exact ⟨phase_of_error _ _ _ (caughtMsg_ne_empty m _ hfb1), rfl,
      caughtMsg_ne_empty m _ hfb1⟩
  · intro r u d m her hst hut hdt hfr
    rw [run_throw_fetch build env s r u d m her hst hut hdt hfr]
    exact ⟨phase_of_error _ _ _ (caughtMsg_ne_empty m _ hfb1), rfl,
      caughtMsg_ne_empty m _ hfb1⟩
  · intro r u d resp m her hst hut hdt hfr hjr
    rw [run_throw_json build env s r u d resp m her hst hut hdt hfr hjr]
    exact ⟨phase_of_error _ _ _ (caughtMsg_ne_empty m _ hfb1), rfl,
      caughtMsg_ne_empty m _ hfb1⟩
  · intro r u d resp j her hst hut hdt hfr hjr hnok
    rw [run_rejected build env s r u d resp j her hst hut hdt hfr hjr hnok]
    refine ⟨phase_of_error _ _ _ (jsOrStr_ne_empty _ _ hfb2), rfl, ?_, ?_, ?_⟩
    · intro e he hne
      rw [he]
      simp [jsOrStr, optStr, hne]
    · intro he
      rw [he]
      rfl
    · intro msg hmsg
      injection hmsg with h2
      rw [← h2]
      exact jsOrStr_ne_empty _ _ hfb2

/-- C6 witness: the rejected-upload clause applied to a concrete run
whose response carries `error = "arquivo inválido"`. -/
theorem C6_witness :
    phase (handleExportAndSendV2 envRejected initialState).state
        = Phase.failed ∧
    (handleExportAndSendV2 envRejected initialState).state.errorMessage
        = some "arquivo inválido" := by
  have h := (C6_failure_carries_message buildMockupUrl envRejected
      initialState).2.2.2.2.2 ⟨"completed", some "Logo", [1]⟩ "u" "d"
      ⟨true⟩ (some jsonErrRejected) rfl rfl rfl rfl rfl rfl (by decide)
  exact ⟨h.1, h.2.2.1 "arquivo inválido" rfl (by decide)⟩

/-- C7 (confirmed): if the upload succeeded and the preview-open
invocation throws, the phase remains `Success` and `lastError` remains
unset — the preview failure is never escalated, in either variant. -/
theorem C7_preview_failure_keeps_success (env : Env) (s : SessionState)
    (r : ExportResult) (u d : String) (resp : FetchResp)
    (j : Option UploadJson) (m : Option String)
    (her : env.exportResult = .ok r) (hst : r.status = "completed")
    (hut : env.userToken = .ok u) (hdt : env.designToken = .ok d)
    (hfr : env.fetchResult = .ok resp) (hjr : env.jsonResult = .ok j)
    (hok : resp.ok = true) (hjo : jsonOkB j = true)
    (_hopen : env.openResult = .thrown m) :
    (phase (handleExportAndSendV1 env s).state = Phase.success ∧
      (handleExportAndSendV1 env s).state.errorMessage = none) ∧
    (phase (handleExportAndSendV2 env s).state = Phase.success ∧
      (handleExportAndSendV2 env s).state.errorMessage = none) := by
  have h1 := run_success mockupUrl env s r u d resp j her hst hut hdt hfr
    hjr hok hjo
  have h2 := run_success buildMockupUrl env s r u d resp j her hst hut hdt
    hfr hjr hok hjo
  simp only [handleExportAndSendV1, handleExportAndSendV2]
  rw [h1, h2]
  exact ⟨⟨phase_of_success _ _ hjo, rfl⟩, ⟨phase_of_success _ _ hjo, rfl⟩⟩

/-- C7 witness: the theorem applied to a concrete successful run whose
preview-open call throws. -/
theorem C7_witness :
    phase (handleExportAndSendV2 envOpenThrows initialState).state
        = Phase.success ∧
    (handleExportAndSendV2 envOpenThrows initialState).state.errorMessage
        = none := by
  have h := C7_preview_failure_keeps_success envOpenThrows initialState
    ⟨"completed", some "Logo", [1]⟩ "u" "d" ⟨true⟩ (some jsonOkTrue)
    (some "blocked") rfl rfl rfl rfl rfl rfl rfl rfl rfl
  exact h.2

/-- C8 (confirmed): invoking `reset` from the `Success` or the
`Failed` phase yields phase `Idle` with `lastError` unset, `lastUpload`
unset and the empty title. -/
theorem C8_reset_from_terminal (s : SessionState)
    (h : phase s = Phase.success ∨ phase s = Phase.failed) :
    reset s = SessionState.mk false none none "" ∧
    phase (reset s) = Phase.idle := by
  have hl : s.loading = false := by
    cases hsl : s.loading
    · rfl
    · rcases h with h | h <;> simp [phase, hsl] at h
  constructor
  · show SessionState.mk s.loading none none ""
        = SessionState.mk false none none ""
    rw [hl]
  · show phase (SessionState.mk s.loading none none "") = Phase.idle
    rw [hl]
    rfl

/-- C8 witness: the theorem applied to a concrete `Failed` state. -/
theorem C8_witness :
    reset (SessionState.mk false (some "e") none "x")
        = SessionState.mk false none none "" ∧
    phase (reset (SessionState.mk false (some "e") none "x"))
        = Phase.idle :=
  C8_reset_from_terminal (SessionState.mk false (some "e") none "x")
    (Or.inr (by decide))

/-- C9 (confirmed): on every exit path of the start transition —
normal completion, cancellation and every thrown-error path, i.e. for
every environment — the loading flag ends cleared and the final phase
is not the in-flight (`Exporting`/`Uploading`) phase, in both
variants. -/
theorem C9_loading_always_cleared (env : Env) (s : SessionState) :
    (handleExportAndSendV1 env s).state.loading = false ∧
    (handleExportAndSendV2 env s).state.loading = false ∧
    phase (handleExportAndSendV1 env s).state ≠ Phase.busy ∧
    phase (handleExportAndSendV2 env s).state ≠ Phase.busy := by
  have h1 := run_loading_false mockupUrl env s
  have h2 := run_loading_false buildMockupUrl env s
  exact ⟨h1, h2, phase_ne_busy _ h1, phase_ne_busy _ h2⟩

/-- C10 (amended): `reset` is total and idempotent and always clears
`lastError`, `lastUpload` and the title; it yields the `Idle` phase
whenever it is invoked outside an in-flight run (`loading = false`,
which includes every phase from which the UI offers it).  It does not
clear the `loading` flag, so invoked during `Exporting`/`Uploading` the
phase stays busy rather than `Idle` (`C10_counterexample`). -/
theorem C10_reset_total_idempotent (s : SessionState) :
    reset (reset s) = reset s ∧
    (reset s).errorMessage = none ∧
    (reset s).resultInfo = none ∧
    (reset s).title = "" ∧
    (reset s).loading = s.loading ∧
    (s.loading = false → phase (reset s) = Phase.idle) := by
  refine ⟨rfl, rfl, rfl, rfl, rfl, ?_⟩
  intro h
  show phase (SessionState.mk s.loading none none "") = Phase.idle
  rw [h]
  rfl

/-- C10 counterexample: invoked while `loading` is set (the
`Exporting`/`Uploading` phase), `reset` does not produce the cleared
`Idle` state — the phase stays busy. -/
theorem C10_counterexample :
    phase (reset (SessionState.mk true none none "")) ≠ Phase.idle ∧
    phase (reset (SessionState.mk true none none "")) = Phase.busy := by
  decide

/-- C10 witness: the amended theorem applied to a concrete non-loading
state. -/
theorem C10_witness :
    phase (reset (SessionState.mk false (some "e") (some jsonOkTrue) "t"))
      = Phase.idle :=
  (C10_reset_total_idempotent
    (SessionState.mk false (some "e") (some jsonOkTrue) "t")).2.2.2.2.2 rfl

end CanvaApp
